import Mathlib

/-!
# CoingeckoAdapter: the request handler of `index.js`

A shallow embedding of `customError`, `customParams` and `createRequest`
from `index.js`, together with the two collaborators of the package
`@chainlink/external-adapter` (`Validator`, `Requester`) whose code is not
part of the repository.

* JSON values are the type `JVal`; an object is an association list and a
  property that is absent (`undefined`) is `none`.
* JSON numbers are rationals; the one arithmetic result that is not a finite
  number, a division by zero, is kept apart in `JNum`.  Rounding of IEEE
  doubles is not modelled.
* One call of `createRequest` is a `Run`: the ordered list of the effects it
  has (the outbound request, the invocations of the callback), the exception,
  if any, that leaves the function, and the rejection, if any, that no handler
  of the promise chain takes.  The chain `request(..).then(..).catch(..)` has
  a single suspension point, so the settled outcome of the request is a
  parameter (`Env.request`).
* The `callback` argument is given by its behaviour: invoked with a status code
  and a payload it returns, or it throws.
* `String.prototype.toLowerCase` is a built-in of the runtime and a parameter
  (`Env.toLowerCase`), known on ASCII strings.
-/

namespace CoingeckoAdapter

/-! ## Values -/

/-- A JSON value as it can appear in the input `data` or in a response body. -/
inductive JVal where
  | null
  | bool (b : Bool)
  | num (q : ℚ)
  | str (s : String)
  deriving DecidableEq

/-- A JavaScript object: keys with their values, first match wins. -/
abbrev Obj := List (String × JVal)

/-- Property access `o[k]`; `none` stands for `undefined`. -/
def Obj.get (o : Obj) (k : String) : Option JVal :=
  match o with
  | [] => none
  | (key, v) :: rest => if key = k then some v else Obj.get rest k

/-- The result of the JavaScript operator `typeof`. -/
def typeOf : JVal → String
  | .null => "object"
  | .bool _ => "boolean"
  | .num _ => "number"
  | .str _ => "string"

/-- Truthiness of a possibly absent value, as tested by `if (x)`. -/
def truthy : Option JVal → Bool
  | none => false
  | some .null => false
  | some (.bool b) => b
  | some (.num q) => q ≠ 0
  | some (.str s) => s ≠ ""

/-- A JavaScript number that results from arithmetic on finite numbers. -/
inductive JNum where
  | fin (q : ℚ)
  | posInf
  | negInf
  | nan
  deriving DecidableEq

/-- The operator `/` on two finite numbers (no rounding, no signed zero). -/
def jsDiv (a b : ℚ) : JNum :=
  if b = 0 then
    if a = 0 then .nan else if 0 < a then .posInf else .negInf
  else .fin (a / b)

/-- An error value: thrown, or the reason of a rejected promise. -/
inductive JErr where
  | validation (message : String)
  | typeError (message : String)
  | upstream (message : String)
  | raised (message : String)
  deriving DecidableEq

/-- The call `coin.toLowerCase()` (index.js, line 52), `lower` being the
built-in `String.prototype.toLowerCase`: a `TypeError` unless `coin` is a
string. -/
def coinToLowerCase (lower : String → String) : Option JVal → Except JErr String
  | some (.str s) => .ok (lower s)
  | none => .error (.typeError "Cannot read properties of undefined (reading toLowerCase)")
  | some _ => .error (.typeError "coin.toLowerCase is not a function")

/-! ## `customError` and `customParams` -/

/-- The body of an upstream response: the field `Response` read by the retry
predicate and the field `prices` read by the handler. -/
structure Body where
  Response : Option JVal
  prices : Option (List (ℚ × ℚ))
  deriving DecidableEq

/-- The retry predicate `customError` (index.js, lines 5-8). -/
def customError (data : Body) : Bool :=
  if data.Response = some (.str "Error") then true
  else false

/-- One entry of `customParams`. -/
structure ParamSpec where
  aliases : List String
  description : String
  required : Bool
  type : String
  deriving DecidableEq

/-- The table `customParams` (index.js, lines 14-45), in source order. -/
def customParams : List (String × ParamSpec) :=
  [ ("base",
      { aliases := ["coin", "cid", "symbol", "sym"],
        description := "The coin id of the currency to query",
        required := true, type := "string" }),
    ("vs_currency",
      { aliases := ["convert", "quote", "market"],
        description := "The symbol of the currency to convert to",
        required := true, type := "string" }),
    ("start",
      { aliases := ["from"],
        description := "Timestamp (Unix or ISO 8601) to start returning quotes for",
        required := true, type := "string" }),
    ("end",
      { aliases := ["to"],
        description := "Timestamp (Unix or ISO 8601) to stop returning quotes for",
        required := true, type := "string" }),
    ("withDetails",
      { aliases := ["average"],
        description := "Whether price details should be returned, false as default",
        required := false, type := "boolean" }) ]

/-! ## Requests, responses, envelopes -/

/-- The input of the handler: the job identifier and the `data` mapping. -/
structure Input where
  id : Option String
  data : Obj
  deriving DecidableEq

/-- The request configuration handed to `Requester.request`. -/
structure Config where
  method : String
  url : String
  params : List (String × Option JVal)
  deriving DecidableEq

/-- An upstream response as `Requester.request` resolves it. -/
structure Response where
  status : Nat
  data : Body
  deriving DecidableEq

/-- The object `{average: averagePrice}` (index.js, line 91). -/
structure Result where
  average : JNum
  deriving DecidableEq

/-- The object the handler stores in `response.data`: the key `prices` is
present only on the `withDetails` branch. -/
structure OutData where
  prices : Option (List (ℚ × ℚ))
  result : Result
  deriving DecidableEq

/-- The response after the handler has replaced its `data`. -/
structure OutResponse where
  status : Nat
  data : OutData
  deriving DecidableEq

/-- Modelled from the spec: the two envelopes of the package
`@chainlink/external-adapter`, which is not part of the repository.
`Requester.success(jobRunID, response)` "tags the payload as a success result
bound to `jobRunID`" and carries the response `data`;
`Requester.errored(jobRunID, error)` carries the job identifier and the
underlying error. -/
inductive Payload where
  | success (jobRunID : Option String) (response : OutResponse)
  | errored (jobRunID : Option String) (error : JErr)
  deriving DecidableEq

/-- An effect of one call of the handler that is visible outside of it. -/
inductive Event where
  | request (config : Config)
  | callback (statusCode : Nat) (data : Payload)
  deriving DecidableEq

/-- One call of `createRequest`: its effects in order, the exception that
leaves the function, if any, and the rejection of the promise chain that no
handler takes, if any. -/
structure Run where
  events : List Event
  thrown : Option JErr
  unhandled : Option JErr
  deriving DecidableEq

/-- The behaviour of the `callback` argument of `createRequest`: invoked with a
status code and a payload it returns (`none`) or throws (`some error`). -/
abbrev Callback := Nat → Payload → Option JErr

/-- The parts of a call that the handler does not decide: the status the
validator reports a failure with, the settled outcome of
`Requester.request(config, customError)` (resolved with a response, or
rejected with an error after the retries of the client), and the built-in
`String.prototype.toLowerCase`, which on a string of ASCII characters turns the
letters `A` to `Z` into `a` to `z` and leaves every other character. -/
structure Env where
  validationStatus : Nat
  request : Config → (Body → Bool) → Except JErr Response
  toLowerCase : String → String
  toLowerCase_ascii : ∀ s : String, (∀ c ∈ s.data, c.toNat < 128) →
    toLowerCase s = String.mk (s.data.map Char.toLower)

/-! ## The validator -/

/-- What `validator.validated` holds after a successful validation. -/
structure Validated where
  id : Option String
  data : Obj
  deriving DecidableEq

/-- Modelled from the spec: alias resolution of the validator of
`@chainlink/external-adapter`, which is not part of the repository.  A
parameter is read under its own name or, failing that, under the first of its
aliases that is present. -/
def resolveParam (data : Obj) (key : String) (aliases : List String) : Option JVal :=
  (key :: aliases).findSome? (fun k => data.get k)

/-- Modelled from the spec: validation of one parameter by the validator of
`@chainlink/external-adapter`.  It "fails with a `ValidationError` when a
required field is absent after alias resolution, or when the value of a field
does not match its declared type"; an optional field that is absent is left
out. -/
def validateParam (data : Obj) (key : String) (p : ParamSpec) :
    Except JErr (Option JVal) :=
  match resolveParam data key p.aliases with
  | none =>
    if p.required then .error (.validation ("Required parameter not supplied: " ++ key))
    else .ok none
  | some v =>
    if typeOf v = p.type then .ok (some v)
    else .error (.validation ("Parameter of the wrong type: " ++ key))

/-- Modelled from the spec: the validator of `@chainlink/external-adapter`
run over a parameter table, giving the validated fields or the first error. -/
def validateParams (data : Obj) : List (String × ParamSpec) → Except JErr Obj
  | [] => .ok []
  | (key, p) :: rest =>
    match validateParam data key p with
    | .error e => .error e
    | .ok none => validateParams data rest
    | .ok (some v) =>
      match validateParams data rest with
      | .error e => .error e
      | .ok validated => .ok ((key, v) :: validated)

/-- Modelled from the spec: the constructor `new Validator(callback, input,
customParams)` of `@chainlink/external-adapter`, which is not part of the
repository ("schema in, validated-fields-or-error out").  On a validation
failure "`completion` is invoked with an error status and an error payload
carrying the job identifier" and an exception ends the call: the
`ValidationError`, or what the callback threw; on success no effect happens
and the validated fields are returned. -/
def Validator (validationStatus : Nat) (callback : Callback) (input : Input)
    (params : List (String × ParamSpec)) : List Event × Except JErr Validated :=
  match validateParams input.data params with
  | .error e =>
    ([.callback validationStatus (.errored input.id e)],
      .error ((callback validationStatus (.errored input.id e)).getD e))
  | .ok data => ([], .ok { id := input.id, data := data })

/-! ## `createRequest` -/

/-- The loop of index.js, lines 79-83: `sumPrice += price[1]` over `prices`. -/
def sumPrice (prices : List (ℚ × ℚ)) : ℚ :=
  prices.foldl (fun acc price => acc + price.2) 0

/-- The value `averagePrice` (index.js, line 84). -/
def averagePrice (prices : List (ℚ × ℚ)) : JNum :=
  jsDiv (sumPrice prices) prices.length

/-- The handler passed to `.then` (index.js, lines 74-97): the effects it has
and the exception it ends with, if any.  Iterating over a `prices` that is
absent throws a `TypeError` before the callback is reached; otherwise the
callback is invoked, and what it throws leaves the handler. -/
def onFulfilled (validated : Validated) (jobRunID : Option String) (callback : Callback)
    (response : Response) : List Event × Option JErr :=
  match response.data.prices with
  | none => ([], some (.typeError "prices is not iterable"))
  | some prices =>
    let average := averagePrice prices
    let data : OutData :=
      if truthy (validated.data.get "withDetails") then
        { prices := some prices, result := { average := average } }
      else
        { prices := none, result := { average := average } }
    let payload : Payload := .success jobRunID { status := response.status, data := data }
    ([.callback response.status payload], callback response.status payload)

/-- The handler passed to `.catch` (index.js, lines 98-100): the effects it has
and the exception it ends with, if any. -/
def onRejected (jobRunID : Option String) (callback : Callback) (error : JErr) :
    List Event × Option JErr :=
  ([.callback 500 (.errored jobRunID error)], callback 500 (.errored jobRunID error))

/-- The request configuration built in index.js, lines 51-69, `lower` being
the built-in `String.prototype.toLowerCase`. -/
def buildConfig (lower : String → String) (validated : Validated) : Except JErr Config :=
  match coinToLowerCase lower (validated.data.get "base") with
  | .error e => .error e
  | .ok coin =>
    .ok
      { method := "get",
        url := "https://api.coingecko.com/api/v3/coins/" ++ coin ++ "/market_chart/range",
        params :=
          [ ("vs_currency", validated.data.get "vs_currency"),
            ("from", validated.data.get "start"),
            ("to", validated.data.get "end") ] }

/-- The chain `.then(onFulfilled).catch(onRejected)` applied to the settled
outcome of the request (index.js, lines 73-100): the effects of the handlers
that run and the rejection left at the end of the chain, if any.  A rejection
of the request, and an exception that leaves the `.then` handler (thrown by
the handler or by the callback it invokes), both reach the `.catch` handler;
an exception that leaves the `.catch` handler is taken by nobody. -/
def settle (validated : Validated) (jobRunID : Option String) (callback : Callback)
    (outcome : Except JErr Response) : List Event × Option JErr :=
  match outcome with
  | .ok response =>
    match onFulfilled validated jobRunID callback response with
    | (events, none) => (events, none)
    | (events, some error) =>
      (events ++ (onRejected jobRunID callback error).1,
        (onRejected jobRunID callback error).2)
  | .error error => onRejected jobRunID callback error

/-- The function `createRequest` (index.js, lines 47-101). -/
def createRequest (env : Env) (input : Input) (callback : Callback) : Run :=
  match Validator env.validationStatus callback input customParams with
  | (effects, .error e) => { events := effects, thrown := some e, unhandled := none }
  | (effects, .ok validated) =>
    let jobRunID := validated.id
    match buildConfig env.toLowerCase validated with
    | .error e => { events := effects, thrown := some e, unhandled := none }
    | .ok config =>
      { events := effects ++ .request config ::
          (settle validated jobRunID callback (env.request config customError)).1,
        thrown := none,
        unhandled := (settle validated jobRunID callback (env.request config customError)).2 }

/-- The invocations of the callback in a run, in order. -/
def Run.callbacks (r : Run) : List (Nat × Payload) :=
  r.events.filterMap fun
    | .callback statusCode data => some (statusCode, data)
    | .request _ => none

/-- The outbound requests dispatched in a run, in order. -/
def Run.requests (r : Run) : List Config :=
  r.events.filterMap fun
    | .request config => some config
    | .callback _ _ => none

/-! ## Sample inputs -/

/-- A request that names every parameter by an alias. -/
def sampleInput : Input :=
  { id := some "7",
    data := [("coin", .str "BTC"), ("quote", .str "usd"), ("from", .str "1392577232"),
             ("to", .str "1422577232"), ("withDetails", .bool true)] }

/-- The validated fields of `sampleInput`. -/
def sampleValidated : Validated :=
  { id := some "7",
    data := [("base", .str "BTC"), ("vs_currency", .str "usd"), ("start", .str "1392577232"),
             ("end", .str "1422577232"), ("withDetails", .bool true)] }

/-- The request with the coin under its own name `base`. -/
def sampleBaseInput : Input :=
  { id := some "7",
    data := [("base", .str "BTC"), ("quote", .str "usd"), ("from", .str "1392577232"),
             ("to", .str "1422577232"), ("withDetails", .bool true)] }

/-- A request without `vs_currency` or any alias of it. -/
def sampleIncompleteInput : Input :=
  { id := some "7",
    data := [("base", .str "BTC"), ("from", .str "1392577232"), ("to", .str "1422577232")] }

/-- An upstream response with three price points. -/
def sampleResponse : Response :=
  { status := 200,
    data := { Response := none, prices := some [(1000, 10), (2000, 20), (3000, 30)] } }

/-- An upstream response with an empty range. -/
def sampleEmptyResponse : Response :=
  { status := 200, data := { Response := none, prices := some [] } }

/-- A request whose coin mixes capitals, small letters, a digit and a hyphen. -/
def sampleMixedInput : Input :=
  { id := some "8",
    data := [("base", .str "Bitcoin-Cash2"), ("vs_currency", .str "EUR"),
             ("start", .str "1392577232"), ("end", .str "1422577232")] }

/-- The validated fields of `sampleMixedInput`. -/
def sampleMixedValidated : Validated :=
  { id := some "8",
    data := [("base", .str "Bitcoin-Cash2"), ("vs_currency", .str "EUR"),
             ("start", .str "1392577232"), ("end", .str "1422577232")] }

/-- Lowering of the letters `A` to `Z`: the value of `toLowerCase` on the
strings of the samples, all of them ASCII. -/
def asciiLowerCase (s : String) : String :=
  String.mk (s.data.map Char.toLower)

/-- An environment in which the request resolves with `sampleResponse`. -/
def sampleEnv : Env :=
  { validationStatus := 400,
    request := fun _ _ => .ok sampleResponse,
    toLowerCase := asciiLowerCase,
    toLowerCase_ascii := fun _ _ => rfl }

/-- An environment in which the request resolves with `sampleEmptyResponse`. -/
def sampleEmptyEnv : Env :=
  { validationStatus := 400,
    request := fun _ _ => .ok sampleEmptyResponse,
    toLowerCase := asciiLowerCase,
    toLowerCase_ascii := fun _ _ => rfl }

/-- An environment in which the request is rejected. -/
def sampleFailingEnv : Env :=
  { validationStatus := 400,
    request := fun _ _ => .error (.upstream "ECONNREFUSED"),
    toLowerCase := asciiLowerCase,
    toLowerCase_ascii := fun _ _ => rfl }

/-- A callback that returns on every invocation. -/
def sampleCallback : Callback :=
  fun _ _ => none

/-- A callback that throws when it is handed the status 200, as a caller
does that checks the result inside the callback. -/
def sampleThrowingCallback : Callback :=
  fun statusCode _ => if statusCode = 200 then some (.raised "unexpected result") else none

/-! ## Auxiliary lemmas -/

theorem foldl_add_snd (prices : List (ℚ × ℚ)) (acc : ℚ) :
    prices.foldl (fun acc price => acc + price.2) acc
      = acc + (prices.map Prod.snd).sum := by
  induction prices generalizing acc with
  | nil => simp
  | cons p rest ih => simp [List.foldl_cons, ih, add_assoc]

theorem sumPrice_eq_sum (prices : List (ℚ × ℚ)) :
    sumPrice prices = (prices.map Prod.snd).sum := by
  simp [sumPrice, foldl_add_snd]

theorem averagePrice_of_ne_nil (prices : List (ℚ × ℚ)) (h : prices ≠ []) :
    averagePrice prices = .fin ((prices.map Prod.snd).sum / prices.length) := by
  have hlen : (prices.length : ℚ) ≠ 0 := by
    simpa using h
  simp [averagePrice, jsDiv, hlen, sumPrice_eq_sum]

theorem validateParams_error_of_mem (data : Obj) (ps : List (String × ParamSpec))
    (key : String) (p : ParamSpec) (e : JErr) (hmem : (key, p) ∈ ps)
    (he : validateParam data key p = .error e) :
    ∃ e', validateParams data ps = .error e' := by
  induction ps with
  | nil => cases hmem
  | cons q rest ih =>
    obtain ⟨k, sp⟩ := q
    rcases List.mem_cons.mp hmem with heq | hin
    · cases heq
      exact ⟨e, by simp [validateParams, he]⟩
    · obtain ⟨e', he'⟩ := ih hin
      simp only [validateParams]
      cases hk : validateParam data k sp with
      | error e0 => exact ⟨e0, rfl⟩
      | ok r =>
        cases r with
        | none => exact ⟨e', he'⟩
        | some v => exact ⟨e', by simp [he']⟩

theorem resolveParam_eq_none (data : Obj) (key : String) (aliases : List String)
    (h : ∀ k ∈ key :: aliases, data.get k = none) :
    resolveParam data key aliases = none := by
  unfold resolveParam
  rw [List.findSome?_eq_none_iff]
  exact h

/-- A required parameter of type string passes validation exactly with the
string it resolves to. -/
theorem validateParam_string_ok (data : Obj) (key : String) (aliases : List String)
    (description : String) (r : Option JVal)
    (h : validateParam data key
      { aliases := aliases, description := description, required := true, type := "string" }
        = .ok r) :
    ∃ s, r = some (.str s) ∧ resolveParam data key aliases = some (.str s) := by
  unfold validateParam at h
  cases hres : resolveParam data key aliases with
  | none => simp [hres] at h
  | some v =>
    cases v with
    | str s =>
      simp [hres, typeOf] at h
      exact ⟨s, h.symm, rfl⟩
    | null => simp [hres, typeOf] at h
    | bool b => simp [hres, typeOf] at h
    | num q => simp [hres, typeOf] at h

/-- An optional parameter of type boolean passes validation either absent or
with the boolean it resolves to. -/
theorem validateParam_boolean_ok (data : Obj) (key : String) (aliases : List String)
    (description : String) (r : Option JVal)
    (h : validateParam data key
      { aliases := aliases, description := description, required := false, type := "boolean" }
        = .ok r) :
    r = none ∨ ∃ b, r = some (.bool b) := by
  unfold validateParam at h
  cases hres : resolveParam data key aliases with
  | none =>
    simp [hres] at h
    exact Or.inl h.symm
  | some v =>
    cases v with
    | bool b =>
      simp [hres, typeOf] at h
      exact Or.inr ⟨b, h.symm⟩
    | null => simp [hres, typeOf] at h
    | str s => simp [hres, typeOf] at h
    | num q => simp [hres, typeOf] at h

/-- Inversion of a successful validation at a required string parameter. -/
theorem validateParams_cons_string (data d : Obj) (key : String) (aliases : List String)
    (description : String) (rest : List (String × ParamSpec))
    (h : validateParams data
      ((key, { aliases := aliases, description := description, required := true,
               type := "string" }) :: rest) = .ok d) :
    ∃ (s : String) (tail : Obj),
      resolveParam data key aliases = some (.str s)
      ∧ validateParams data rest = .ok tail ∧ d = (key, .str s) :: tail := by
  simp only [validateParams] at h
  split at h
  · cases h
  · rename_i hp
    obtain ⟨s, hs, -⟩ := validateParam_string_ok _ _ _ _ _ hp
    cases hs
  · rename_i v hp
    obtain ⟨s, hs, hres⟩ := validateParam_string_ok _ _ _ _ _ hp
    cases hs
    split at h
    · cases h
    · rename_i tail htail
      cases h
      exact ⟨s, tail, hres, htail, rfl⟩

/-- The shape of the validated fields when `customParams` is satisfied: the
four required strings, each the value its parameter resolves to, followed by
`withDetails` when a boolean was supplied for it. -/
theorem validateParams_customParams_ok (data d : Obj)
    (h : validateParams data customParams = .ok d) :
    ∃ (b c s e : String) (w : Obj),
      d = ("base", .str b) :: ("vs_currency", .str c) :: ("start", .str s)
            :: ("end", .str e) :: w
      ∧ (w = [] ∨ ∃ x, w = [("withDetails", .bool x)])
      ∧ resolveParam data "base" ["coin", "cid", "symbol", "sym"] = some (.str b)
      ∧ resolveParam data "vs_currency" ["convert", "quote", "market"] = some (.str c)
      ∧ resolveParam data "start" ["from"] = some (.str s)
      ∧ resolveParam data "end" ["to"] = some (.str e) := by
  unfold customParams at h
  obtain ⟨b, d1, hb, h1, rfl⟩ := validateParams_cons_string _ _ _ _ _ _ h
  obtain ⟨c, d2, hc, h2, rfl⟩ := validateParams_cons_string _ _ _ _ _ _ h1
  obtain ⟨s, d3, hs, h3, rfl⟩ := validateParams_cons_string _ _ _ _ _ _ h2
  obtain ⟨e, d4, he, h4, rfl⟩ := validateParams_cons_string _ _ _ _ _ _ h3
  refine ⟨b, c, s, e, d4, rfl, ?_, hb, hc, hs, he⟩
  simp only [validateParams] at h4
  split at h4
  · cases h4
  · cases h4
    exact Or.inl rfl
  · rename_i v hw
    cases h4
    rcases validateParam_boolean_ok _ _ _ _ _ hw with hn | ⟨x, hx⟩
    · cases hn
    · cases hx
      exact Or.inr ⟨x, rfl⟩

/-- The validator has no effect when it succeeds, and then keeps the job
identifier of the input. -/
theorem Validator_ok (status : Nat) (callback : Callback) (input : Input) (v : Validated)
    (h : (Validator status callback input customParams).2 = .ok v) :
    Validator status callback input customParams = ([], .ok v)
      ∧ v.id = input.id ∧ validateParams input.data customParams = .ok v.data := by
  unfold Validator at h ⊢
  cases hp : validateParams input.data customParams with
  | error e => simp [hp] at h
  | ok d =>
    simp only [hp] at h ⊢
    cases h
    exact ⟨rfl, rfl, rfl⟩

/-- The fields `createRequest` reads from a successful validation. -/
theorem validated_fields (status : Nat) (callback : Callback) (input : Input)
    (v : Validated)
    (h : (Validator status callback input customParams).2 = .ok v) :
    ∃ (b c s e : String),
      v.data.get "base" = some (.str b)
      ∧ v.data.get "vs_currency" = some (.str c)
      ∧ v.data.get "start" = some (.str s)
      ∧ v.data.get "end" = some (.str e)
      ∧ (v.data.get "withDetails" = none ∨ ∃ x, v.data.get "withDetails" = some (.bool x)) := by
  obtain ⟨-, -, hd⟩ := Validator_ok status callback input v h
  obtain ⟨b, c, s, e, w, hshape, hw, -⟩ := validateParams_customParams_ok _ _ hd
  refine ⟨b, c, s, e, ?_, ?_, ?_, ?_, ?_⟩
  · rw [hshape]; rfl
  · rw [hshape]; rfl
  · rw [hshape]; rfl
  · rw [hshape]; rfl
  · rcases hw with rfl | ⟨x, rfl⟩
    · left; rw [hshape]; rfl
    · right; exact ⟨x, by rw [hshape]; rfl⟩

/-- The request configuration of a valid input, spelled out. -/
theorem buildConfig_valid (status : Nat) (callback : Callback) (input : Input)
    (v : Validated) (lower : String → String)
    (h : (Validator status callback input customParams).2 = .ok v) :
    ∃ (b c s e : String),
      v.data.get "base" = some (.str b)
      ∧ v.data.get "vs_currency" = some (.str c)
      ∧ v.data.get "start" = some (.str s)
      ∧ v.data.get "end" = some (.str e)
      ∧ buildConfig lower v = .ok
          { method := "get",
            url := "https://api.coingecko.com/api/v3/coins/" ++ lower b
                    ++ "/market_chart/range",
            params := [("vs_currency", some (.str c)), ("from", some (.str s)),
                       ("to", some (.str e))] } := by
  obtain ⟨b, c, s, e, hb, hc, hs, he, -⟩ := validated_fields status callback input v h
  exact ⟨b, c, s, e, hb, hc, hs, he, by simp [buildConfig, coinToLowerCase, hb, hc, hs, he]⟩

/-- A valid input leads to one request followed by the settled chain. -/
theorem createRequest_valid (env : Env) (input : Input) (callback : Callback)
    (v : Validated)
    (h : (Validator env.validationStatus callback input customParams).2 = .ok v) :
    ∃ config, buildConfig env.toLowerCase v = .ok config
      ∧ createRequest env input callback =
          { events := .request config ::
              (settle v v.id callback (env.request config customError)).1,
            thrown := none,
            unhandled := (settle v v.id callback (env.request config customError)).2 } := by
  obtain ⟨b, c, s, e, -, -, -, -, hcfg⟩ :=
    buildConfig_valid _ callback input v env.toLowerCase h
  obtain ⟨hV, -, -⟩ := Validator_ok _ callback input v h
  exact ⟨_, hcfg, by simp [createRequest, hV, hcfg]⟩

/-- An invalid input leads to the callback of the validator and nothing else. -/
theorem createRequest_invalid (env : Env) (input : Input) (callback : Callback) (e : JErr)
    (h : validateParams input.data customParams = .error e) :
    createRequest env input callback =
      { events := [.callback env.validationStatus (.errored input.id e)],
        thrown := some ((callback env.validationStatus (.errored input.id e)).getD e),
        unhandled := none } := by
  simp [createRequest, Validator, h]

/-- The chain invokes the callback once, or twice when the invocation made by
the `.then` handler threw. -/
theorem settle_callbacks (v : Validated) (id : Option String) (callback : Callback)
    (outcome : Except JErr Response) :
    (∃ statusCode payload, (settle v id callback outcome).1 = [.callback statusCode payload])
    ∨ (∃ statusCode payload error, callback statusCode payload = some error
        ∧ (settle v id callback outcome).1
            = [.callback statusCode payload, .callback 500 (.errored id error)]) := by
  unfold settle
  cases outcome with
  | error err => exact Or.inl ⟨500, _, rfl⟩
  | ok response =>
    simp only
    cases hp : response.data.prices with
    | none =>
      left
      simp [onFulfilled, hp, onRejected]
    | some prices =>
      simp only [onFulfilled, hp]
      split
      · rename_i events heq
        simp only [Prod.mk.injEq] at heq
        left
        exact ⟨_, _, heq.1.symm⟩
      · rename_i events error heq
        simp only [Prod.mk.injEq] at heq
        right
        exact ⟨_, _, error, heq.2, by rw [← heq.1]; rfl⟩

/-- Every error of the validator is a `ValidationError`. -/
theorem validateParams_error_is_validation (data : Obj) (ps : List (String × ParamSpec))
    (e : JErr) (h : validateParams data ps = .error e) :
    ∃ message, e = .validation message := by
  induction ps with
  | nil => simp [validateParams] at h
  | cons q rest ih =>
    obtain ⟨k, sp⟩ := q
    simp only [validateParams] at h
    split at h
    · rename_i e0 hp
      cases h
      unfold validateParam at hp
      split at hp
      · split at hp
        · cases hp; exact ⟨_, rfl⟩
        · cases hp
      · split at hp
        · cases hp
        · cases hp; exact ⟨_, rfl⟩
    · exact ih h
    · split at h
      · rename_i e0 hrest
        cases h
        exact ih hrest
      · cases h

/-- The required entries of `customParams` are the four named in the contract. -/
theorem required_customParams :
    (customParams.filter (fun kp => kp.2.required)).map Prod.fst
      = ["base", "vs_currency", "start", "end"] := by
  rfl

/-- The `.then` handler on a response that has a `prices` sequence. -/
theorem onFulfilled_prices (v : Validated) (id : Option String) (callback : Callback)
    (response : Response) (prices : List (ℚ × ℚ))
    (hprices : response.data.prices = some prices) :
    onFulfilled v id callback response =
      ([.callback response.status
          (.success id
            { status := response.status,
              data :=
                { prices := if truthy (v.data.get "withDetails") then some prices else none,
                  result := { average := averagePrice prices } } })],
        callback response.status
          (.success id
            { status := response.status,
              data :=
                { prices := if truthy (v.data.get "withDetails") then some prices else none,
                  result := { average := averagePrice prices } } })) := by
  unfold onFulfilled
  rw [hprices]
  by_cases hw : truthy (v.data.get "withDetails") = true <;> simp [hw]

/-- The invocations of the callback by a valid input whose request resolves
with a `prices` sequence: the one of the `.then` handler and, when it threw,
the one of the `.catch` handler. -/
theorem createRequest_success (env : Env) (input : Input) (callback : Callback)
    (v : Validated) (response : Response) (prices : List (ℚ × ℚ))
    (hvalid : (Validator env.validationStatus callback input customParams).2 = .ok v)
    (hresp : ∀ config, buildConfig env.toLowerCase v = .ok config →
      env.request config customError = .ok response)
    (hprices : response.data.prices = some prices) :
    (createRequest env input callback).thrown = none
    ∧ (createRequest env input callback).callbacks =
        (response.status,
          .success v.id
            { status := response.status,
              data :=
                { prices := if truthy (v.data.get "withDetails") then some prices else none,
                  result := { average := averagePrice prices } } })
        :: (callback response.status
              (.success v.id
                { status := response.status,
                  data :=
                    { prices :=
                        if truthy (v.data.get "withDetails") then some prices else none,
                      result := { average := averagePrice prices } } })).toList.map
            (fun error => (500, Payload.errored v.id error)) := by
  obtain ⟨config, hcfg, hrun⟩ := createRequest_valid env input callback v hvalid
  rw [hrun, hresp config hcfg]
  refine ⟨rfl, ?_⟩
  simp only [Run.callbacks, settle, onFulfilled_prices v v.id callback response prices hprices]
  split
  · rename_i events heq
    simp only [Prod.mk.injEq] at heq
    rw [← heq.1, heq.2]
    rfl
  · rename_i events error heq
    simp only [Prod.mk.injEq] at heq
    rw [← heq.1, heq.2]
    rfl

/-- Validation depends on `data` only through what each parameter resolves to. -/
theorem validateParams_congr (dataA dataB : Obj) (ps : List (String × ParamSpec))
    (h : ∀ kp ∈ ps, resolveParam dataA kp.1 kp.2.aliases = resolveParam dataB kp.1 kp.2.aliases) :
    validateParams dataA ps = validateParams dataB ps := by
  induction ps with
  | nil => rfl
  | cons q rest ih =>
    obtain ⟨k, sp⟩ := q
    have hq : resolveParam dataA k sp.aliases = resolveParam dataB k sp.aliases :=
      h (k, sp) (List.mem_cons_self _ _)
    have hrest := ih (fun kp hkp => h kp (List.mem_cons_of_mem _ hkp))
    simp only [validateParams, validateParam, hq, hrest]

/-! ## The claims -/

/-! ## The claims -/

/-- C1: for a valid input and a successful upstream response whose `prices` is
a non-empty sequence of pairs, the callback is invoked with the status of the
response and a success payload whose `data.result.average` is the sum of the
second elements of the pairs divided by the number of pairs (numbers taken as
rationals).  This is the only invocation when the callback returns; when it
throws, the `.catch` handler reports what it threw. -/
theorem average_is_arithmetic_mean (env : Env) (input : Input) (callback : Callback)
    (v : Validated) (response : Response) (prices : List (ℚ × ℚ))
    (hvalid : (Validator env.validationStatus callback input customParams).2 = .ok v)
    (hresp : ∀ config, buildConfig env.toLowerCase v = .ok config →
      env.request config customError = .ok response)
    (hprices : response.data.prices = some prices) (hne : prices ≠ []) :
    ∃ data,
      (createRequest env input callback).callbacks
        = (response.status, .success v.id { status := response.status, data := data })
          :: (callback response.status
                (.success v.id { status := response.status, data := data })).toList.map
              (fun error => (500, Payload.errored v.id error))
      ∧ data.result.average = .fin ((prices.map Prod.snd).sum / prices.length) := by
  obtain ⟨-, hcb⟩ := createRequest_success env input callback v response prices
    hvalid hresp hprices
  exact ⟨_, hcb, averagePrice_of_ne_nil prices hne⟩

/-- Witness of C1 on `sampleInput` and `sampleResponse`. -/
theorem average_is_arithmetic_mean_witness :
    (Validator sampleEnv.validationStatus sampleCallback sampleInput customParams).2
        = .ok sampleValidated
    ∧ ∃ data,
        (createRequest sampleEnv sampleInput sampleCallback).callbacks
          = [(sampleResponse.status,
              .success sampleValidated.id { status := sampleResponse.status, data := data })]
        ∧ data.result.average
            = .fin ((([(1000, 10), (2000, 20), (3000, 30)] : List (ℚ × ℚ)).map Prod.snd).sum
                / ([(1000, 10), (2000, 20), (3000, 30)] : List (ℚ × ℚ)).length) :=
  ⟨rfl, average_is_arithmetic_mean sampleEnv sampleInput sampleCallback sampleValidated
    sampleResponse [(1000, 10), (2000, 20), (3000, 30)] rfl (fun _ _ => rfl) rfl (by simp)⟩

/-- C2: for a valid input and a successful upstream response with a `prices`
sequence, the `data` of the payload handed to the callback always holds
`result`; it holds `prices`, equal to the upstream sequence, when the
validated `withDetails` is true, and holds no `prices` when the validated
`withDetails` is false or absent.  The validated `withDetails` is always one
of the three. -/
theorem withDetails_controls_prices (env : Env) (input : Input) (callback : Callback)
    (v : Validated) (response : Response) (prices : List (ℚ × ℚ))
    (hvalid : (Validator env.validationStatus callback input customParams).2 = .ok v)
    (hresp : ∀ config, buildConfig env.toLowerCase v = .ok config →
      env.request config customError = .ok response)
    (hprices : response.data.prices = some prices) :
    ∃ data,
      (createRequest env input callback).callbacks
        = (response.status, .success v.id { status := response.status, data := data })
          :: (callback response.status
                (.success v.id { status := response.status, data := data })).toList.map
              (fun error => (500, Payload.errored v.id error))
      ∧ data.result = { average := averagePrice prices }
      ∧ (v.data.get "withDetails" = some (.bool true) → data.prices = some prices)
      ∧ (v.data.get "withDetails" = some (.bool false) → data.prices = none)
      ∧ (v.data.get "withDetails" = none → data.prices = none)
      ∧ (v.data.get "withDetails" = some (.bool true)
          ∨ v.data.get "withDetails" = some (.bool false)
          ∨ v.data.get "withDetails" = none) := by
  obtain ⟨-, hcb⟩ := createRequest_success env input callback v response prices
    hvalid hresp hprices
  obtain ⟨-, -, -, -, -, -, -, -, hw⟩ := validated_fields _ callback input v hvalid
  refine ⟨_, hcb, rfl, ?_, ?_, ?_, ?_⟩
  · intro h; simp [h, truthy]
  · intro h; simp [h, truthy]
  · intro h; simp [h, truthy]
  · rcases hw with h | ⟨x, h⟩
    · exact Or.inr (Or.inr h)
    · cases x
      · exact Or.inr (Or.inl h)
      · exact Or.inl h

/-- Witness of C2 on `sampleInput`, whose `withDetails` is true: the payload
carries the three upstream pairs. -/
theorem withDetails_controls_prices_witness :
    (Validator sampleEnv.validationStatus sampleCallback sampleInput customParams).2
        = .ok sampleValidated
    ∧ sampleValidated.data.get "withDetails" = some (.bool true)
    ∧ ∃ data,
        (createRequest sampleEnv sampleInput sampleCallback).callbacks
          = [(sampleResponse.status,
              .success sampleValidated.id { status := sampleResponse.status, data := data })]
        ∧ data.prices = some [(1000, 10), (2000, 20), (3000, 30)] := by
  obtain ⟨data, hcb, -, htrue, -, -, -⟩ :=
    withDetails_controls_prices sampleEnv sampleInput sampleCallback sampleValidated
      sampleResponse [(1000, 10), (2000, 20), (3000, 30)] rfl (fun _ _ => rfl) rfl
  exact ⟨rfl, rfl, data, hcb, htrue rfl⟩

/-- C3: when a required parameter of `customParams` (`base`, `vs_currency`,
`start` or `end`) is absent from `data` under its own name and under every
alias, the only effect of `createRequest` is one invocation of the callback,
with the validation-failure status and an error envelope that carries the job
identifier and a `ValidationError`; no request is dispatched, and the call ends
with the `ValidationError` or with what the callback threw. -/
theorem missing_required_parameter_never_dispatches (env : Env) (input : Input)
    (callback : Callback) (key : String) (p : ParamSpec)
    (hmem : (key, p) ∈ customParams) (hreq : p.required = true)
    (hmissing : ∀ k ∈ key :: p.aliases, input.data.get k = none) :
    ∃ message,
      createRequest env input callback =
        { events := [.callback env.validationStatus
                      (.errored input.id (.validation message))],
          thrown := some ((callback env.validationStatus
                      (.errored input.id (.validation message))).getD (.validation message)),
          unhandled := none }
      ∧ (createRequest env input callback).requests = []
      ∧ (createRequest env input callback).callbacks
          = [(env.validationStatus, .errored input.id (.validation message))] := by
  have hparam : validateParam input.data key p
      = .error (.validation ("Required parameter not supplied: " ++ key)) := by
    simp [validateParam, resolveParam_eq_none input.data key p.aliases hmissing, hreq]
  obtain ⟨e, he⟩ := validateParams_error_of_mem input.data customParams key p _ hmem hparam
  obtain ⟨message, rfl⟩ := validateParams_error_is_validation _ _ e he
  have hrun := createRequest_invalid env input callback _ he
  exact ⟨message, hrun, by rw [hrun]; rfl, by rw [hrun]; rfl⟩

/-- Witness of C3 on `sampleIncompleteInput`, which lacks `vs_currency`. -/
theorem missing_required_parameter_never_dispatches_witness :
    ∃ message,
      createRequest sampleEnv sampleIncompleteInput sampleCallback =
        { events := [.callback sampleEnv.validationStatus
                      (.errored sampleIncompleteInput.id (.validation message))],
          thrown := some (.validation message),
          unhandled := none }
      ∧ (createRequest sampleEnv sampleIncompleteInput sampleCallback).requests = []
      ∧ (createRequest sampleEnv sampleIncompleteInput sampleCallback).callbacks
          = [(sampleEnv.validationStatus,
              .errored sampleIncompleteInput.id (.validation message))] :=
  missing_required_parameter_never_dispatches sampleEnv sampleIncompleteInput sampleCallback
    "vs_currency"
    { aliases := ["convert", "quote", "market"],
      description := "The symbol of the currency to convert to",
      required := true, type := "string" }
    (by simp [customParams]) rfl (by decide)

/-- C4: for a valid input whose request is rejected with an error, the
callback is invoked once, with status 500 and the error envelope built from
the job identifier of the input and that error. -/
theorem upstream_failure_reports_500 (env : Env) (input : Input) (callback : Callback)
    (v : Validated) (error : JErr)
    (hvalid : (Validator env.validationStatus callback input customParams).2 = .ok v)
    (hrej : ∀ config, buildConfig env.toLowerCase v = .ok config →
      env.request config customError = .error error) :
    (createRequest env input callback).callbacks = [(500, .errored v.id error)]
      ∧ v.id = input.id := by
  obtain ⟨config, hcfg, hrun⟩ := createRequest_valid env input callback v hvalid
  obtain ⟨-, hid, -⟩ := Validator_ok _ callback input v hvalid
  rw [hrun, hrej config hcfg]
  exact ⟨rfl, hid⟩

/-- Witness of C4 on `sampleInput` with a refused connection. -/
theorem upstream_failure_reports_500_witness :
    (Validator sampleFailingEnv.validationStatus sampleCallback sampleInput customParams).2
        = .ok sampleValidated
    ∧ (createRequest sampleFailingEnv sampleInput sampleCallback).callbacks
        = [(500, .errored (some "7") (.upstream "ECONNREFUSED"))] :=
  ⟨rfl, (upstream_failure_reports_500 sampleFailingEnv sampleInput sampleCallback
    sampleValidated (.upstream "ECONNREFUSED") rfl (fun _ _ => rfl)).1⟩

/-- C5: `customError` returns true exactly when the field `Response` of the
body is the string `"Error"`; it returns true on `{ Response: "Error" }` and
false when the field is absent, is another string, differs in case, or is not
a string. -/
theorem customError_iff_Response_is_Error :
    (∀ data : Body, customError data = decide (data.Response = some (.str "Error")))
    ∧ (∀ data : Body, customError data = true ↔ data.Response = some (.str "Error"))
    ∧ (∀ prices, customError { Response := some (.str "Error"), prices := prices } = true)
    ∧ (∀ prices, customError { Response := none, prices := prices } = false)
    ∧ (∀ prices, customError { Response := some (.str "error"), prices := prices } = false)
    ∧ (∀ prices, customError { Response := some (.str "Success"), prices := prices } = false)
    ∧ (∀ prices b, customError { Response := some (.bool b), prices := prices } = false)
    ∧ (∀ prices q, customError { Response := some (.num q), prices := prices } = false)
    ∧ (∀ prices, customError { Response := some .null, prices := prices } = false) := by
  refine ⟨?_, ?_, ?_, ?_, ?_, ?_, ?_, ?_, ?_⟩
  · intro data; by_cases h : data.Response = some (.str "Error") <;> simp [customError, h]
  · intro data; simp [customError]
  · intro prices; simp [customError]
  · intro prices; simp [customError]
  · intro prices; simp [customError]
  · intro prices; simp [customError]
  · intro prices b; simp [customError]
  · intro prices q; simp [customError]
  · intro prices; simp [customError]

/-- C6: for a valid input, exactly one request is dispatched, and its
configuration is determined by the validated `base`, `vs_currency`, `start`
and `end` alone: the method is `get`, the URL is that of the
market-chart-range endpoint with the value of `toLowerCase` on `base` in its
path, and the query parameters are the three keys `vs_currency`, `from` and
`to` with the validated `vs_currency`, `start` and `end`.  For a `base` of
ASCII characters the path holds `base` with the letters `A` to `Z` replaced by
`a` to `z`. -/
theorem outbound_request_from_validated_fields (env : Env) (input : Input)
    (callback : Callback) (v : Validated)
    (hvalid : (Validator env.validationStatus callback input customParams).2 = .ok v) :
    ∃ (base vs_currency start stop : String),
      v.data.get "base" = some (.str base)
      ∧ v.data.get "vs_currency" = some (.str vs_currency)
      ∧ v.data.get "start" = some (.str start)
      ∧ v.data.get "end" = some (.str stop)
      ∧ (createRequest env input callback).requests =
          [ { method := "get",
              url := "https://api.coingecko.com/api/v3/coins/" ++ env.toLowerCase base
                      ++ "/market_chart/range",
              params := [("vs_currency", some (.str vs_currency)),
                         ("from", some (.str start)), ("to", some (.str stop))] } ]
      ∧ ((∀ c ∈ base.data, c.toNat < 128) →
          (createRequest env input callback).requests =
            [ { method := "get",
                url := "https://api.coingecko.com/api/v3/coins/"
                        ++ String.mk (base.data.map Char.toLower) ++ "/market_chart/range",
                params := [("vs_currency", some (.str vs_currency)),
                           ("from", some (.str start)), ("to", some (.str stop))] } ]) := by
  obtain ⟨b, c, s, e, hb, hc, hs, he, hcfg⟩ :=
    buildConfig_valid _ callback input v env.toLowerCase hvalid
  obtain ⟨config, hcfg', hrun⟩ := createRequest_valid env input callback v hvalid
  rw [hcfg] at hcfg'
  cases hcfg'
  have hreq : (createRequest env input callback).requests =
      [ { method := "get",
          url := "https://api.coingecko.com/api/v3/coins/" ++ env.toLowerCase b
                  ++ "/market_chart/range",
          params := [("vs_currency", some (.str c)), ("from", some (.str s)),
                     ("to", some (.str e))] } ] := by
    rw [hrun]
    rcases settle_callbacks v v.id callback
      (env.request
        { method := "get",
          url := "https://api.coingecko.com/api/v3/coins/" ++ env.toLowerCase b
                  ++ "/market_chart/range",
          params := [("vs_currency", some (.str c)), ("from", some (.str s)),
                     ("to", some (.str e))] } customError)
      with ⟨sc, payload, hsettle⟩ | ⟨sc, payload, error, -, hsettle⟩
    · simp [Run.requests, hsettle]
    · simp [Run.requests, hsettle]
  refine ⟨b, c, s, e, hb, hc, hs, he, hreq, ?_⟩
  intro hascii
  rw [hreq, env.toLowerCase_ascii b hascii]

/-- Witness of C6 on `sampleMixedInput`: the coin `Bitcoin-Cash2` is requested
as `bitcoin-cash2`, and `vs_currency` is forwarded as it is. -/
theorem outbound_request_from_validated_fields_witness :
    (Validator sampleEnv.validationStatus sampleCallback sampleMixedInput customParams).2
        = .ok sampleMixedValidated
    ∧ (createRequest sampleEnv sampleMixedInput sampleCallback).requests =
        [ { method := "get",
            url := "https://api.coingecko.com/api/v3/coins/bitcoin-cash2/market_chart/range",
            params := [("vs_currency", some (.str "EUR")),
                       ("from", some (.str "1392577232")),
                       ("to", some (.str "1422577232"))] } ] := by
  obtain ⟨b, c, s, e, hb, hc, hs, he, -, hreq⟩ :=
    outbound_request_from_validated_fields sampleEnv sampleMixedInput sampleCallback
      sampleMixedValidated rfl
  have hb' : b = "Bitcoin-Cash2" := by
    have : sampleMixedValidated.data.get "base" = some (.str "Bitcoin-Cash2") := rfl
    rw [hb] at this
    simpa using this
  have hc' : c = "EUR" := by
    have : sampleMixedValidated.data.get "vs_currency" = some (.str "EUR") := rfl
    rw [hc] at this
    simpa using this
  have hs' : s = "1392577232" := by
    have : sampleMixedValidated.data.get "start" = some (.str "1392577232") := rfl
    rw [hs] at this
    simpa using this
  have he' : e = "1422577232" := by
    have : sampleMixedValidated.data.get "end" = some (.str "1422577232") := rfl
    rw [he] at this
    simpa using this
  subst hb' hc' hs' he'
  exact ⟨rfl, hreq (by decide)⟩

/-- Counterexample to C7 as stated: on `sampleInput`, with a request that
resolves with `sampleResponse` and a callback that throws when it is handed
the status 200, the `.then` handler invokes the callback, the exception
reaches the `.catch` handler, and the callback is invoked a second time. -/
theorem callback_invoked_twice_when_it_throws :
    (createRequest sampleEnv sampleInput sampleThrowingCallback).callbacks =
        [ (200, .success (some "7")
            { status := 200,
              data := { prices := some [(1000, 10), (2000, 20), (3000, 30)],
                        result := { average := .fin 20 } } }),
          (500, .errored (some "7") (.raised "unexpected result")) ]
    ∧ ¬ ∃ statusCode payload,
        (createRequest sampleEnv sampleInput sampleThrowingCallback).callbacks
          = [(statusCode, payload)] := by
  have h := (createRequest_success sampleEnv sampleInput sampleThrowingCallback
    sampleValidated sampleResponse [(1000, 10), (2000, 20), (3000, 30)]
    rfl (fun _ _ => rfl) rfl).2
  have havg : averagePrice [(1000, 10), (2000, 20), (3000, 30)] = .fin 20 := by
    simp only [averagePrice, sumPrice, jsDiv]
    norm_num
  have hcb : (createRequest sampleEnv sampleInput sampleThrowingCallback).callbacks =
      [ (200, .success (some "7")
          { status := 200,
            data := { prices := some [(1000, 10), (2000, 20), (3000, 30)],
                      result := { average := .fin 20 } } }),
        (500, .errored (some "7") (.raised "unexpected result")) ] := by
    rw [h, havg]
    rfl
  refine ⟨hcb, ?_⟩
  rintro ⟨statusCode, payload, hone⟩
  rw [hcb] at hone
  simp at hone

/-- C7, amended: whatever the input, the validation status and the outcome of
the request, one call of `createRequest` invokes the callback with a status
code and a payload exactly once when the callback returns; in general it
invokes it once, or twice when the first invocation threw, the second one
carrying status 500 and the error envelope of what was thrown. -/
theorem callback_invoked_once_unless_it_throws (env : Env) (input : Input)
    (callback : Callback) :
    ((∀ statusCode payload, callback statusCode payload = none) →
      ∃ statusCode payload,
        (createRequest env input callback).callbacks = [(statusCode, payload)])
    ∧ ((∃ statusCode payload,
          (createRequest env input callback).callbacks = [(statusCode, payload)])
        ∨ ∃ statusCode payload error, callback statusCode payload = some error
            ∧ (createRequest env input callback).callbacks
                = [(statusCode, payload), (500, .errored input.id error)]) := by
  have hmain : (∃ statusCode payload,
        (createRequest env input callback).callbacks = [(statusCode, payload)])
      ∨ ∃ statusCode payload error, callback statusCode payload = some error
          ∧ (createRequest env input callback).callbacks
              = [(statusCode, payload), (500, .errored input.id error)] := by
    cases hv : validateParams input.data customParams with
    | error e =>
      rw [createRequest_invalid env input callback e hv]
      exact Or.inl ⟨_, _, rfl⟩
    | ok d =>
      have hvalid : (Validator env.validationStatus callback input customParams).2
          = .ok { id := input.id, data := d } := by
        simp [Validator, hv]
      obtain ⟨config, -, hrun⟩ := createRequest_valid env input callback _ hvalid
      rw [hrun]
      rcases settle_callbacks { id := input.id, data := d } input.id callback
        (env.request config customError)
        with ⟨sc, payload, hsettle⟩ | ⟨sc, payload, error, hthrow, hsettle⟩
      · exact Or.inl ⟨sc, payload, by simp [Run.callbacks, hsettle]⟩
      · exact Or.inr ⟨sc, payload, error, hthrow, by simp [Run.callbacks, hsettle]⟩
  refine ⟨?_, hmain⟩
  intro hquiet
  rcases hmain with hone | ⟨sc, payload, error, hthrow, -⟩
  · exact hone
  · rw [hquiet sc payload] at hthrow
    cases hthrow

/-- Witness of C7, amended, on `sampleInput` with a callback that returns. -/
theorem callback_invoked_once_unless_it_throws_witness :
    (∀ statusCode payload, sampleCallback statusCode payload = none)
    ∧ ∃ statusCode payload,
        (createRequest sampleEnv sampleInput sampleCallback).callbacks
          = [(statusCode, payload)] :=
  ⟨fun _ _ => rfl,
    (callback_invoked_once_unless_it_throws sampleEnv sampleInput sampleCallback).1
      (fun _ _ => rfl)⟩

/-- C8: an input that supplies the coin under the alias `coin` and has no
`base` is handled exactly as an input that supplies the same value under
`base` and agrees with it on the job identifier and on every other key: in
the same environment and with the same callback both calls have the same
effects, that is the same outbound request and the same invocations of the
callback. -/
theorem alias_coin_resolves_as_base (env : Env) (inputA inputB : Input)
    (callback : Callback) (value : JVal)
    (hid : inputA.id = inputB.id)
    (hnobase : inputA.data.get "base" = none)
    (hcoin : inputA.data.get "coin" = some value)
    (hbase : inputB.data.get "base" = some value)
    (hrest : ∀ k, k ≠ "base" → k ≠ "coin" → inputA.data.get k = inputB.data.get k) :
    createRequest env inputA callback = createRequest env inputB callback := by
  have hparams : validateParams inputA.data customParams
      = validateParams inputB.data customParams := by
    apply validateParams_congr
    intro kp hkp
    simp only [customParams, List.mem_cons, List.mem_singleton, List.not_mem_nil,
      or_false] at hkp
    rcases hkp with rfl | rfl | rfl | rfl | rfl
    · simp [resolveParam, List.findSome?, hnobase, hcoin, hbase]
    · simp [resolveParam, List.findSome?, hrest "vs_currency" (by decide) (by decide),
        hrest "convert" (by decide) (by decide), hrest "quote" (by decide) (by decide),
        hrest "market" (by decide) (by decide)]
    · simp [resolveParam, List.findSome?, hrest "start" (by decide) (by decide),
        hrest "from" (by decide) (by decide)]
    · simp [resolveParam, List.findSome?, hrest "end" (by decide) (by decide),
        hrest "to" (by decide) (by decide)]
    · simp [resolveParam, List.findSome?, hrest "withDetails" (by decide) (by decide),
        hrest "average" (by decide) (by decide)]
  simp only [createRequest, Validator, hid, hparams]

/-- Witness of C8 on `sampleInput` (alias `coin`) and `sampleBaseInput`. -/
theorem alias_coin_resolves_as_base_witness :
    sampleInput.data.get "base" = none
    ∧ sampleInput.data.get "coin" = some (.str "BTC")
    ∧ sampleBaseInput.data.get "base" = some (.str "BTC")
    ∧ createRequest sampleEnv sampleInput sampleCallback
        = createRequest sampleEnv sampleBaseInput sampleCallback :=
  ⟨rfl, rfl, rfl,
    alias_coin_resolves_as_base sampleEnv sampleInput sampleBaseInput sampleCallback
      (.str "BTC") rfl rfl rfl rfl (by
        intro k hb hc
        simp [sampleInput, sampleBaseInput, Obj.get, hb, hc, Ne.symm hb, Ne.symm hc])⟩

/-- C9: for a valid input and the successful upstream response with
`prices = [[1000, 10], [2000, 20], [3000, 30]]`, the payload handed to the
callback has `data.result.average = 20`. -/
theorem average_of_three_points (env : Env) (input : Input) (callback : Callback)
    (v : Validated) (response : Response)
    (hvalid : (Validator env.validationStatus callback input customParams).2 = .ok v)
    (hresp : ∀ config, buildConfig env.toLowerCase v = .ok config →
      env.request config customError = .ok response)
    (hprices : response.data.prices = some [(1000, 10), (2000, 20), (3000, 30)]) :
    ∃ data,
      (createRequest env input callback).callbacks
        = (response.status, .success v.id { status := response.status, data := data })
          :: (callback response.status
                (.success v.id { status := response.status, data := data })).toList.map
              (fun error => (500, Payload.errored v.id error))
      ∧ data.result = { average := .fin 20 } := by
  obtain ⟨-, hcb⟩ := createRequest_success env input callback v response _
    hvalid hresp hprices
  refine ⟨_, hcb, ?_⟩
  simp only [averagePrice, sumPrice, jsDiv]
  norm_num

/-- Witness of C9 on `sampleInput` and `sampleResponse`. -/
theorem average_of_three_points_witness :
    (Validator sampleEnv.validationStatus sampleCallback sampleInput customParams).2
        = .ok sampleValidated
    ∧ ∃ data,
        (createRequest sampleEnv sampleInput sampleCallback).callbacks
          = [(sampleResponse.status,
              .success sampleValidated.id { status := sampleResponse.status, data := data })]
        ∧ data.result = { average := .fin 20 } :=
  ⟨rfl, average_of_three_points sampleEnv sampleInput sampleCallback sampleValidated
    sampleResponse rfl (fun _ _ => rfl) rfl⟩

/-- C10: for a valid input and a successful upstream response whose `prices`
is empty, the sum is 0, the count is 0 and the average is the value of 0
divided by 0, which is not a number; the handler throws nothing and invokes
the callback with the status of the upstream response and a success envelope
that holds this average.  The `.catch` handler is reached only by an exception
of the callback itself: an invocation with 500 and an error envelope occurs
only for what the callback threw, and never when the callback returns. -/
theorem empty_prices_average_is_zero_over_zero (env : Env) (input : Input)
    (callback : Callback) (v : Validated) (response : Response)
    (hvalid : (Validator env.validationStatus callback input customParams).2 = .ok v)
    (hresp : ∀ config, buildConfig env.toLowerCase v = .ok config →
      env.request config customError = .ok response)
    (hprices : response.data.prices = some []) :
    sumPrice [] = 0
    ∧ ([] : List (ℚ × ℚ)).length = 0
    ∧ averagePrice [] = jsDiv 0 0
    ∧ jsDiv 0 0 = .nan
    ∧ (createRequest env input callback).thrown = none
    ∧ ∃ data,
        (createRequest env input callback).callbacks
          = (response.status, .success v.id { status := response.status, data := data })
            :: (callback response.status
                  (.success v.id { status := response.status, data := data })).toList.map
                (fun error => (500, Payload.errored v.id error))
        ∧ data.result = { average := jsDiv 0 0 }
        ∧ (∀ error, (500, Payload.errored v.id error)
              ∈ (createRequest env input callback).callbacks →
            callback response.status
              (.success v.id { status := response.status, data := data }) = some error)
        ∧ (callback response.status
              (.success v.id { status := response.status, data := data }) = none →
            (createRequest env input callback).callbacks
              = [(response.status,
                  .success v.id { status := response.status, data := data })]) := by
  obtain ⟨hthrown, hcb⟩ := createRequest_success env input callback v response []
    hvalid hresp hprices
  refine ⟨rfl, rfl, ?_, ?_, hthrown, _, hcb, ?_, ?_, ?_⟩
  · simp [averagePrice, sumPrice]
  · simp [jsDiv]
  · simp [averagePrice, sumPrice]
  · intro error hmem
    rw [hcb] at hmem
    simp only [List.mem_cons, Prod.mk.injEq, List.mem_map, Option.mem_toList,
      Option.mem_def] at hmem
    rcases hmem with ⟨-, hbad⟩ | ⟨e, he, heq⟩
    · cases hbad
    · simp only [Payload.errored.injEq, true_and] at heq
      rw [← heq]
      exact he
  · intro hquiet
    rw [hcb, hquiet]
    rfl

/-- Witness of C10 on `sampleInput` and `sampleEmptyResponse`. -/
theorem empty_prices_average_is_zero_over_zero_witness :
    (Validator sampleEmptyEnv.validationStatus sampleCallback sampleInput customParams).2
        = .ok sampleValidated
    ∧ (createRequest sampleEmptyEnv sampleInput sampleCallback).thrown = none
    ∧ ∃ data,
        (createRequest sampleEmptyEnv sampleInput sampleCallback).callbacks
          = [(sampleEmptyResponse.status,
              .success sampleValidated.id
                { status := sampleEmptyResponse.status, data := data })]
        ∧ data.result = { average := jsDiv 0 0 } :=
  have h := empty_prices_average_is_zero_over_zero sampleEmptyEnv sampleInput sampleCallback
    sampleValidated sampleEmptyResponse rfl (fun _ _ => rfl) rfl
  ⟨rfl, h.2.2.2.2.1, h.2.2.2.2.2.imp fun _ hd => ⟨hd.1, hd.2.1⟩⟩

end CoingeckoAdapter
